import Mathlib

/-!
Verification of the screenwright SDK's AI-agent core against its
natural-language specification.

The development shallowly embeds the three source files the claims are
about:

* `src/sdk/src/ai/openrouter.ts`  — the chat client (`chatJSON` extraction);
* `src/sdk/src/ai/agents/planner.ts` — `generateRecordingPlan`, the tool
  dispatcher `executeMCPTool`, plan extraction and the validation gate;
* `src/sdk/src/ai/agents/scriptwriter.ts` — `generateScript` and the
  action-index reconstruction.

JavaScript values flowing through `JSON.parse` / `JSON.stringify` are
modelled by the inductive `Json` below (integer numerals only — every
numeric literal the embedding touches is an integer).  Thrown exceptions
become `Except` errors.  Network calls are replaced by oracles: the chat
endpoint is a function from the index of the request to the parsed
response, and the Capability Port (`MobileAutomation`) is a record of
possibly-failing operations.  The constant simulator udid argument that
the source threads through unchanged is omitted.
-/

/-- Model of a JavaScript/JSON value.  Numbers are restricted to integers,
which covers every value manipulated by the embedded code paths. -/
inductive Json where
  | null
  | bool (b : Bool)
  | num (n : Int)
  | str (s : String)
  | arr (elems : List Json)
  | obj (fields : List (String × Json))

mutual

/-- Structural equality on `Json`, needed because the nested `List`
occurrences defeat automatic `DecidableEq` derivation. -/
def Json.beq : Json → Json → Bool
  | .null, .null => true
  | .bool a, .bool b => a == b
  | .num a, .num b => a == b
  | .str a, .str b => a == b
  | .arr a, .arr b => Json.beqList a b
  | .obj a, .obj b => Json.beqFields a b
  | _, _ => false

/-- Pointwise `Json.beq` on lists of values. -/
def Json.beqList : List Json → List Json → Bool
  | [], [] => true
  | x :: xs, y :: ys => Json.beq x y && Json.beqList xs ys
  | _, _ => false

/-- Pointwise `Json.beq` on association lists of object fields. -/
def Json.beqFields : List (String × Json) → List (String × Json) → Bool
  | [], [] => true
  | (k, v) :: xs, (k', v') :: ys => k == k' && Json.beq v v' && Json.beqFields xs ys
  | _, _ => false

end

/-- Character-level whitespace test used by the JSON scanner (the four
whitespace characters JSON admits). -/
def isWsChar (c : Char) : Bool :=
  c == ' ' || c == '\n' || c == '\t' || c == '\r'

/-- Drop leading JSON whitespace. -/
def skipWs : List Char → List Char
  | [] => []
  | c :: cs => if isWsChar c then skipWs cs else c :: cs

/-- Map a character appearing after a backslash in a JSON string literal to
the character it denotes. -/
def unescapeChar (c : Char) : Char :=
  if c == 'n' then '\n'
  else if c == 't' then '\t'
  else if c == 'r' then '\r'
  else c

/-- Scan the body of a JSON string literal (the opening quote already
consumed), returning the decoded characters and the rest of the input. -/
def parseStrBody : List Char → Option (List Char × List Char)
  | [] => none
  | c :: cs =>
    if c == '"' then some ([], cs)
    else if c == '\\' then
      match cs with
      | [] => none
      | e :: cs' =>
        match parseStrBody cs' with
        | some (acc, rest) => some (unescapeChar e :: acc, rest)
        | none => none
    else
      match parseStrBody cs with
      | some (acc, rest) => some (c :: acc, rest)
      | none => none

/-- Take a maximal run of decimal digits. -/
def takeDigits : List Char → List Char × List Char
  | [] => ([], [])
  | c :: cs =>
    if c.isDigit then
      match takeDigits cs with
      | (ds, rest) => (c :: ds, rest)
    else ([], c :: cs)

/-- Accumulator form of the digit-run evaluator. -/
def digitsToNatAux (acc : Nat) : List Char → Nat
  | [] => acc
  | c :: cs => digitsToNatAux (acc * 10 + (c.toNat - 48)) cs

/-- Numeric value of a digit run. -/
def digitsToNat : List Char → Nat
  | [] => 0
  | c :: cs => digitsToNatAux (c.toNat - 48) cs

/-- Consume an expected literal such as `null` or `true`. -/
def dropLit (lit : List Char) (cs : List Char) : Option (List Char) :=
  if lit.isPrefixOf cs then some (cs.drop lit.length) else none

mutual

/-- Fuel-indexed recursive-descent JSON value reader, modelling the grammar
accepted by `JSON.parse` on integer-numeric documents. -/
def parseVal : Nat → List Char → Option (Json × List Char)
  | 0, _ => none
  | fuel + 1, cs0 =>
    match skipWs cs0 with
    | [] => none
    | c :: rest =>
      if c == '"' then
        match parseStrBody rest with
        | some (body, rem) => some (.str (String.mk body), rem)
        | none => none
      else if c == '{' then
        match skipWs rest with
        | '}' :: rem => some (.obj [], rem)
        | other =>
          match parseMembers fuel other with
          | some (fs, rem) => some (.obj fs, rem)
          | none => none
      else if c == '[' then
        match skipWs rest with
        | ']' :: rem => some (.arr [], rem)
        | other =>
          match parseElems fuel other with
          | some (xs, rem) => some (.arr xs, rem)
          | none => none
      else if c == 't' then
        match dropLit ['t', 'r', 'u', 'e'] (c :: rest) with
        | some rem => some (.bool true, rem)
        | none => none
      else if c == 'f' then
        match dropLit ['f', 'a', 'l', 's', 'e'] (c :: rest) with
        | some rem => some (.bool false, rem)
        | none => none
      else if c == 'n' then
        match dropLit ['n', 'u', 'l', 'l'] (c :: rest) with
        | some rem => some (.null, rem)
        | none => none
      else if c == '-' then
        match takeDigits rest with
        | ([], _) => none
        | (ds, rem) => some (.num (-(Int.ofNat (digitsToNat ds))), rem)
      else if c.isDigit then
        match takeDigits (c :: rest) with
        | ([], _) => none
        | (ds, rem) => some (.num (Int.ofNat (digitsToNat ds)), rem)
      else none

/-- Reader for the members of a JSON object after `{` (nonempty case). -/
def parseMembers : Nat → List Char → Option (List (String × Json) × List Char)
  | 0, _ => none
  | fuel + 1, cs =>
    match skipWs cs with
    | '"' :: r =>
      match parseStrBody r with
      | some (key, rem) =>
        match skipWs rem with
        | ':' :: rem2 =>
          match parseVal fuel rem2 with
          | some (v, rem3) =>
            match skipWs rem3 with
            | ',' :: rem4 =>
              match parseMembers fuel rem4 with
              | some (fs, rem5) => some ((String.mk key, v) :: fs, rem5)
              | none => none
            | '}' :: rem4 => some ([(String.mk key, v)], rem4)
            | _ => none
          | none => none
        | _ => none
      | none => none
    | _ => none

/-- Reader for the elements of a JSON array after `[` (nonempty case). -/
def parseElems : Nat → List Char → Option (List Json × List Char)
  | 0, _ => none
  | fuel + 1, cs =>
    match parseVal fuel cs with
    | some (v, rem) =>
      match skipWs rem with
      | ',' :: rem2 =>
        match parseElems fuel rem2 with
        | some (xs, rem3) => some (v :: xs, rem3)
        | none => none
      | ']' :: rem2 => some ([v], rem2)
      | _ => none
    | none => none

end

/-- Model of `JSON.parse`: parse a complete document, allowing only trailing
whitespace, and return `none` where `JSON.parse` would throw. -/
def jsonParse (s : String) : Option Json :=
  match parseVal (2 * s.length + 2) s.toList with
  | some (v, rest) => if (skipWs rest).isEmpty then some v else none
  | none => none

/-- Escape one character for inclusion in a serialized JSON string. -/
def escChar (c : Char) : String :=
  if c == '"' then "\\\""
  else if c == '\\' then "\\\\"
  else if c == '\n' then "\\n"
  else if c == '\t' then "\\t"
  else if c == '\r' then "\\r"
  else String.mk [c]

/-- Escape a string as `JSON.stringify` does for the characters in play. -/
def jsEscape (s : String) : String :=
  String.join (s.toList.map escChar)

mutual

/-- Model of `JSON.stringify` on the embedded value space. -/
def jsonStringify : Json → String
  | .null => "null"
  | .bool true => "true"
  | .bool false => "false"
  | .num n => toString n
  | .str s => "\"" ++ jsEscape s ++ "\""
  | .arr xs => "[" ++ stringifyElems xs ++ "]"
  | .obj fs => "\x7b" ++ stringifyFields fs ++ "\x7d"

/-- Comma-joined serialization of array elements. -/
def stringifyElems : List Json → String
  | [] => ""
  | [x] => jsonStringify x
  | x :: y :: rest => jsonStringify x ++ "," ++ stringifyElems (y :: rest)

/-- Comma-joined serialization of object fields. -/
def stringifyFields : List (String × Json) → String
  | [] => ""
  | [(k, v)] => "\"" ++ jsEscape k ++ "\":" ++ jsonStringify v
  | (k, v) :: f :: rest =>
    "\"" ++ jsEscape k ++ "\":" ++ jsonStringify v ++ "," ++ stringifyFields (f :: rest)

end

example : jsonParse "\x7b\"a\":1\x7d" = some (Json.obj [("a", Json.num 1)]) := rfl

example : jsonParse "not json" = none := rfl

example : jsonStringify (Json.obj [("error", Json.str "boom")]) = "\x7b\"error\":\"boom\"\x7d" := rfl

/-- Leading- and trailing-whitespace trim, modelling `String.prototype.trim`
on the ASCII whitespace the embedded strings contain. -/
def trimChars (cs : List Char) : List Char :=
  ((skipWs ((skipWs cs).reverse)).reverse)

/-- String form of `trimChars`. -/
def strTrim (s : String) : String :=
  String.mk (trimChars s.toList)

/-- Index of the first occurrence of `needle` in `hay`, or `none`. -/
def subAt (needle : List Char) : List Char → Option Nat
  | [] => if needle.isEmpty then some 0 else none
  | c :: cs =>
    if needle.isPrefixOf (c :: cs) then some 0
    else (subAt needle cs).map (· + 1)

/-- Substring occurrence test at the string level, as
`String.prototype.includes`. -/
def containsSubStr (hay needle : String) : Bool :=
  (subAt needle.toList hay.toList).isSome

/-- Model of `String.prototype.startsWith`. -/
def strStartsWith (s pre : String) : Bool :=
  pre.toList.isPrefixOf s.toList

/-- Index of the last occurrence of the character `ch`, or `none`. -/
def lastIdxOf (ch : Char) : List Char → Option Nat
  | [] => none
  | c :: cs =>
    match lastIdxOf ch cs with
    | some i => some (i + 1)
    | none => if c == ch then some 0 else none

/-- Fenced-block search shared by the two code-block regexes of
`planner.ts` (`/```json\n([\s\S]+?)\n```/` and `/```\n([\s\S]+?)\n```/`):
find the leftmost occurrence of `openT` that is followed, at distance at
least `minBody`, by `closeT`, and return the lazily-shortest body between
them.  The fuel argument drives the leftward-to-rightward retry that the
regex engine performs when an opening token has no closing token. -/
def fenceSearch (openT closeT : List Char) (minBody : Nat) : Nat → List Char → Option (List Char)
  | 0, _ => none
  | fuel + 1, hay =>
    match subAt openT hay with
    | none => none
    | some i =>
      match subAt closeT ((hay.drop (i + openT.length)).drop minBody) with
      | some c => some ((hay.drop (i + openT.length)).take (minBody + c))
      | none => fenceSearch openT closeT minBody fuel (hay.drop (i + 1))

/-- Model of the `openrouter.ts` fenced regex
`/```json\s*([\s\S]*?)\s*```/` in `chatJSON`: the segment between the
leftmost viable ` ```json ` and the next ` ``` ` (group 1 equals that
segment with surrounding whitespace stripped), together with the whole
matched text (match 0, backticks included). -/
def chatFence : Nat → List Char → Option (List Char × List Char)
  | 0, _ => none
  | fuel + 1, hay =>
    match subAt ['`', '`', '`', 'j', 's', 'o', 'n'] hay with
    | none => none
    | some i =>
      match subAt ['`', '`', '`'] (hay.drop (i + 7)) with
      | some c =>
        some ((hay.drop (i + 7)).take c, (hay.drop i).take (7 + c + 3))
      | none => chatFence fuel (hay.drop (i + 1))

/-- Model of the `openrouter.ts` fallback regex `/\{[\s\S]*\}/` in
`chatJSON`: the greedy span from the first `\x7b` to the last `\x7d` after
it.  This is not a brace-balanced search. -/
def braceSpan (cs : List Char) : Option (List Char) :=
  match subAt ['{'] cs with
  | none => none
  | some i =>
    match lastIdxOf '}' (cs.drop (i + 1)) with
    | none => none
    | some e => some ((cs.drop i).take (e + 2))

/-- String-level wrapper around `braceSpan`. -/
def braceSpanStr (s : String) : Option String :=
  (braceSpan s.toList).map String.mk

/-- Candidate selection of `chatJSON` (`openrouter.ts` lines 200-206): trim
the content, then take the fenced ` ```json ` group if that regex matches
(falling back to the whole match when the group is the empty string, per
`jsonMatch[1] || jsonMatch[0]`), else the greedy `\x7b...\x7d` span if that
matches, else the trimmed content itself.  The first matching regex wins
regardless of whether its candidate parses. -/
def chatJSONExtract (content : String) : String :=
  let t := strTrim content
  match chatFence (t.length + 1) t.toList with
  | some (seg, whole) =>
    let body := strTrim (String.mk seg)
    if body == "" then String.mk whole else body
  | none =>
    match braceSpan t.toList with
    | some m => String.mk m
    | none => t

/-- Model of `OpenRouterClient.chatJSON`, parameterized by the `content`
field of the chat-completion result: empty or missing content is the
`No content in response` error; otherwise the extracted candidate is parsed
and a parse failure is an error carrying the failing candidate. -/
def chatJSON (content : Option String) : Except String Json :=
  match content with
  | none => Except.error "No content in response"
  | some c =>
    if c == "" then Except.error "No content in response"
    else
      match jsonParse (chatJSONExtract c) with
      | some j => Except.ok j
      | none => Except.error ("JSON parse failure: " ++ chatJSONExtract c)

example : chatJSON (some "```json\n\x7b\"a\":1\x7d\n```") = Except.ok (Json.obj [("a", Json.num 1)]) := rfl

example : chatJSON (some "noise \x7b\"a\":1\x7d noise") = Except.ok (Json.obj [("a", Json.num 1)]) := rfl

example : chatJSON (some "```json\nnot json\n``` \x7b\"a\":1\x7d") = Except.error ("JSON parse failure: not json") := rfl

/-- Message roles of the conversation transcript (`ChatMessage.role`). -/
inductive Role where
  | system
  | user
  | assistant
  | tool
deriving DecidableEq, Repr

/-- One transcript message (`ChatMessage` of `openrouter.ts`). -/
structure Msg where
  role : Role
  content : String
deriving DecidableEq, Repr

/-- One tool call emitted by the assistant; `args` models the raw
`toolCall.function.arguments` string. -/
structure ToolCallM where
  id : String
  name : String
  args : String
deriving DecidableEq, Repr

/-- Parsed chat-completion result relevant to the planner loop: the
optional text content and the (possibly empty, standing for absent) list
of tool calls. -/
structure ChatResultM where
  content : Option String
  toolCalls : List ToolCallM
deriving DecidableEq, Repr

/-- Capability Port model (`MobileAutomation` of `planner.ts`): each
operation either returns a JSON payload or throws.  The tap and type
operations receive the possibly-`undefined` field values the dispatcher
passes through (`args.x as number`, etc.).  The constant udid parameter is
omitted. -/
structure MobileAutomationM where
  takeScreenshot : Except String Json
  listElements : Except String Json
  tapAt : Option Json → Option Json → Except String Json
  swipe : String → Except String Json
  typeText : Option Json → Option Json → Except String Json
  terminateAllApps : Except String Unit
  pressButton : String → Except String Unit

/-- Last-wins association lookup, matching how duplicate keys behave in a
parsed JavaScript object. -/
def lookupField (fs : List (String × Json)) (key : String) : Option Json :=
  fs.foldl (fun acc kv => if kv.1 == key then some kv.2 else acc) none

/-- JavaScript property read `v[key]`: throws on `null`, finds fields on
objects, exposes `length` on strings and arrays, and yields `undefined`
(`none`) everywhere else. -/
def jsGetField : Json → String → Except String (Option Json)
  | .null, k =>
    Except.error ("TypeError: Cannot read properties of null (reading '" ++ k ++ "')")
  | .obj fs, k => Except.ok (lookupField fs k)
  | .str s, k =>
    Except.ok (if k == "length" then some (.num (Int.ofNat s.length)) else none)
  | .arr xs, k =>
    Except.ok (if k == "length" then some (.num (Int.ofNat xs.length)) else none)
  | _, _ => Except.ok none

/-- Non-throwing property read: `some` only for a field present on an
object. -/
def jsGetPure : Json → String → Option Json
  | .obj fs, k => lookupField fs k
  | _, _ => none

/-- JavaScript falsiness of a JSON value. -/
def jsFalsy : Json → Bool
  | .null => true
  | .bool false => true
  | .num 0 => true
  | .str "" => true
  | _ => false

/-- The `a || b` idiom on a possibly-`undefined` value. -/
def jsOr (v : Option Json) (d : Json) : Json :=
  match v with
  | some x => if jsFalsy x then d else x
  | none => d

/-- String coercion of a JSON value inside a template literal. -/
def jsCoerce : Json → String
  | .str s => s
  | .num n => toString n
  | .bool true => "true"
  | .bool false => "false"
  | .null => "null"
  | .arr _ => ""
  | .obj _ => "[object Object]"

/-- Tool-argument parsing of `planner.ts` lines 244-252: an absent or
whitespace-only arguments string is skipped, and a JSON parse failure is
caught and replaced by the empty object, never failing the turn. -/
def parseToolArgs (argsStr : String) : Json :=
  if strTrim argsStr == "" then Json.obj []
  else
    match jsonParse argsStr with
    | some j => j
    | none => Json.obj []

/-- Tool dispatcher `executeMCPTool` of `planner.ts`: the five mobile tool
names map to Capability Port calls (the swipe branch first evaluates
`(args.direction as string).toUpperCase()` inside its log statement, which
throws when the argument is missing or not a string); any other name
throws `Unknown tool`. -/
def executeMCPTool (toolName : String) (args : Json) (auto : MobileAutomationM) : Except String Json :=
  if toolName == "mobile_take_screenshot" then auto.takeScreenshot
  else if toolName == "mobile_list_elements_on_screen" then auto.listElements
  else if toolName == "mobile_click_on_screen_at_coordinates" then
    match jsGetField args "x" with
    | Except.error e => Except.error e
    | Except.ok x =>
      match jsGetField args "y" with
      | Except.error e => Except.error e
      | Except.ok y => auto.tapAt x y
  else if toolName == "mobile_swipe_on_screen" then
    match jsGetField args "direction" with
    | Except.error e => Except.error e
    | Except.ok (some (.str d)) => auto.swipe d
    | Except.ok (some _) =>
      Except.error "TypeError: args.direction.toUpperCase is not a function"
    | Except.ok none =>
      Except.error "TypeError: Cannot read properties of undefined (reading 'toUpperCase')"
  else if toolName == "mobile_type_keys" then
    match jsGetField args "text" with
    | Except.error e => Except.error e
    | Except.ok t =>
      match jsGetField args "submit" with
      | Except.error e => Except.error e
      | Except.ok s => auto.typeText t s
  else Except.error ("Unknown tool: " ++ toolName)

/-- Screenshot-result detection of `planner.ts` line 274: the result is an
object with a `screenshot` property. -/
def isScreenshotResult : Json → Bool
  | .obj fs => (lookupField fs "screenshot").isSome
  | _ => false

/-- Content of the `tool` message the planner sends back for a screenshot,
with the base64 payload stripped (`planner.ts` lines 279-288).  `width` and
`height` fields are dropped by `JSON.stringify` when absent. -/
def screenshotToolContent (result : Json) : String :=
  jsonStringify (Json.obj
    ([("success", Json.bool true), ("format", jsOr (jsGetPure result "format") (Json.str "png"))]
      ++ (match jsGetPure result "width" with
          | some w => [("width", w)]
          | none => [])
      ++ (match jsGetPure result "height" with
          | some h => [("height", h)]
          | none => [])
      ++ [("message", Json.str "Screenshot captured and attached as image")]))

/-- Content of the synthetic `user` vision message carrying the screenshot
image (`planner.ts` lines 291-299). -/
def screenshotUserContent (result : Json) : String :=
  jsonStringify (Json.obj
    [("type", Json.str "image_url"),
     ("image_url", Json.obj
       [("url", Json.str ("data:image/"
          ++ jsCoerce (jsOr (jsGetPure result "format") (Json.str "png"))
          ++ ";base64,"
          ++ jsCoerce (jsOr (jsGetPure result "screenshot") (Json.str ""))))])])

/-- Reply messages produced for one tool call (`planner.ts` lines 238-317):
parse the arguments leniently, dispatch, turn a successful screenshot into
the dual tool/user message pair, any other success into a single stringified
`tool` message, and a thrown error into a `tool` message carrying the error
text — the conversation is never aborted here. -/
def toolMessages (auto : MobileAutomationM) (tc : ToolCallM) : List Msg :=
  match executeMCPTool tc.name (parseToolArgs tc.args) auto with
  | Except.ok result =>
    if tc.name == "mobile_take_screenshot" && isScreenshotResult result then
      [⟨Role.tool, screenshotToolContent result⟩,
       ⟨Role.user, screenshotUserContent result⟩]
    else
      [⟨Role.tool, jsonStringify result⟩]
  | Except.error msg =>
    [⟨Role.tool, jsonStringify (Json.obj [("error", Json.str msg)])⟩]

/-- Markdown code-block strategy of the planner's plan extraction
(`planner.ts` line 361): a ` ```json ` fence, then a bare ` ``` ` fence,
both requiring a nonempty newline-delimited body. -/
def matchPlanFence (content : List Char) : Option (List Char) :=
  match fenceSearch "```json\n".toList "\n```".toList 1 (content.length + 1) content with
  | some body => some body
  | none => fenceSearch "```\n".toList "\n```".toList 1 (content.length + 1) content

/-- The planner's second extraction strategy (`planner.ts` line 369), the
regex `/\{[\s\S]*"title"[\s\S]*"recordingSteps"[\s\S]*\}/`: from the first
`\x7b`, through the first `"title"` and then `"recordingSteps"`
occurrences after it, to the last `\x7d` of the text. -/
def planObjMatch (content : List Char) : Option (List Char) :=
  match subAt ['{'] content with
  | none => none
  | some i =>
    match subAt "\"title\"".toList (content.drop (i + 1)) with
    | none => none
    | some t =>
      match subAt "\"recordingSteps\"".toList ((content.drop (i + 1)).drop (t + 7)) with
      | none => none
      | some r =>
        match lastIdxOf '}' (((content.drop (i + 1)).drop (t + 7)).drop (r + 17)) with
        | none => none
        | some e => some ((content.drop i).take (1 + t + 7 + r + 17 + e + 1))

/-- Plan-extraction strategy cascade of `planner.ts` lines 357-380: fenced
code block, else the `title`/`recordingSteps` object regex, else the
trimmed content. -/
def extractPlanString (content : String) : String :=
  match matchPlanFence content.toList with
  | some body => String.mk body
  | none =>
    match planObjMatch content.toList with
    | some m => String.mk m
    | none => strTrim content

/-- Error outcomes of a planner run. -/
inductive PlannerErr where
  | unexpectedFormat
  | parseError (jsonStr : String)
  | jsError (msg : String)
  | validation (msg : String)
  | maxIterations
deriving DecidableEq, Repr

/-- The `recordingSteps is empty` validation failure message thrown at
`planner.ts` lines 397-399. -/
def emptyStepsMsg : String :=
  "Plan validation failed: recordingSteps is empty. The planner must physically test the workflow and create actionable steps."

/-- Evaluation of `plan.recordingSteps.length === 0` (`planner.ts` line
394) with JavaScript member-access semantics: an absent `recordingSteps`
makes reading `.length` of `undefined` throw, strings and arrays expose a
numeric `length`, and a non-numeric or `undefined` length compares `false`
against `0`. -/
def recordingStepsLenZero (plan : Json) : Except String Bool :=
  match jsGetField plan "recordingSteps" with
  | Except.error e => Except.error e
  | Except.ok none =>
    Except.error "TypeError: Cannot read properties of undefined (reading 'length')"
  | Except.ok (some rs) =>
    match jsGetField rs "length" with
    | Except.error e => Except.error e
    | Except.ok (some (.num n)) => Except.ok (n == 0)
    | Except.ok _ => Except.ok false

/-- Extraction plus validation gate applied to the final answer text
(`planner.ts` lines 357-400): choose a candidate, parse it (`JSON.parse`
failure propagates), then reject a plan whose `recordingSteps.length` is
`0` with the distinct validation message. -/
def extractAndValidate (content : String) : Except PlannerErr Json :=
  let jsonStr := extractPlanString content
  match jsonParse jsonStr with
  | none => Except.error (PlannerErr.parseError jsonStr)
  | some plan =>
    match recordingStepsLenZero plan with
    | Except.error m => Except.error (PlannerErr.jsError m)
    | Except.ok true => Except.error (PlannerErr.validation emptyStepsMsg)
    | Except.ok false => Except.ok plan

example : extractAndValidate "\x7b\"title\":\"T\",\"recordingSteps\":[]\x7d" = Except.error (PlannerErr.validation emptyStepsMsg) := rfl

example : extractAndValidate "\x7b\"title\":\"T\",\"recordingSteps\":[\x7b\"type\":\"tap\"\x7d]\x7d" = Except.ok (Json.obj [("title", Json.str "T"), ("recordingSteps", Json.arr [Json.obj [("type", Json.str "tap")]])]) := rfl

/-- The heuristic of `planner.ts` line 331 deciding whether the final
answer already looks like the JSON plan. -/
def looksLikeJson (content : String) : Bool :=
  strStartsWith (strTrim content) "\x7b" && containsSubStr content "\"title\""

/-- The forced-JSON follow-up user prompt of `planner.ts` line 339. -/
def followUpPrompt : String :=
  "Please output the complete JSON plan now. Output ONLY the JSON object, no other text."

/-- Observable state of one planner run: the accumulated transcript (the
`messages` array), and counters for the chat-completion requests and the
cleanup Capability Port calls. -/
structure PlanState where
  messages : List Msg
  chatCalls : Nat
  terminateCalls : Nat
  pressHomeCalls : Nat
deriving DecidableEq, Repr

/-- One tool-processing iteration of the planner loop (`planner.ts` lines
210-321): consume the current chat response, append the assistant message
and every tool call's reply messages in order. -/
def stepTool (auto : MobileAutomationM) (oracle : Nat → ChatResultM) (st : PlanState) : PlanState :=
  let resp := oracle st.chatCalls
  { st with
    chatCalls := st.chatCalls + 1
    messages := st.messages
      ++ ⟨Role.assistant, resp.content.getD ""⟩ :: (resp.toolCalls.map (toolMessages auto)).flatten }

/-- Simulator-reset side effect after a validated plan (`planner.ts` lines
463-477): terminate all apps, then press home; a throw from either call is
caught and only warned about. -/
def runCleanup (auto : MobileAutomationM) (st : PlanState) : PlanState :=
  let st1 := { st with terminateCalls := st.terminateCalls + 1 }
  match auto.terminateAllApps with
  | Except.error _ => st1
  | Except.ok _ =>
    let st2 := { st1 with pressHomeCalls := st1.pressHomeCalls + 1 }
    match auto.pressButton "home" with
    | Except.error _ => st2
    | Except.ok _ => st2

/-- Final-answer handling of the planner loop (`planner.ts` lines 322-479):
if the text does not look like JSON, append the assistant message plus the
forced-JSON user prompt and make one extra JSON-mode chat call whose
content (or the empty string) replaces the answer; then extract and
validate, and on success perform the cleanup side effect before returning
the plan. -/
def finalizePlan (auto : MobileAutomationM) (oracle : Nat → ChatResultM)
    (assistantMsg : Msg) (content : String) (st : PlanState) :
    PlanState × Except PlannerErr Json :=
  let next :=
    if looksLikeJson content then (content, st)
    else
      let st' := { st with
        messages := st.messages ++ [assistantMsg, ⟨Role.user, followUpPrompt⟩] }
      (((oracle st'.chatCalls).content).getD "",
        { st' with chatCalls := st'.chatCalls + 1 })
  match extractAndValidate next.1 with
  | Except.error e => (next.2, Except.error e)
  | Except.ok plan => (runCleanup auto next.2, Except.ok plan)

/-- The bounded conversation loop of `generateRecordingPlan` (`planner.ts`
lines 200-485), indexed by the remaining iteration budget: each iteration
makes one chat call; tool calls are dispatched and the loop continues;
otherwise truthy content goes to plan finalization and anything else is the
`Unexpected response format` error; an exhausted budget is the
`Max iterations reached without generating plan` error. -/
def runIterations (auto : MobileAutomationM) (oracle : Nat → ChatResultM) :
    Nat → PlanState → PlanState × Except PlannerErr Json
  | 0, st => (st, Except.error PlannerErr.maxIterations)
  | fuel + 1, st =>
    let resp := oracle st.chatCalls
    if resp.toolCalls.isEmpty then
      let st1 := { st with chatCalls := st.chatCalls + 1 }
      match resp.content with
      | some c =>
        if c == "" then (st1, Except.error PlannerErr.unexpectedFormat)
        else finalizePlan auto oracle ⟨Role.assistant, c⟩ c st1
      | none => (st1, Except.error PlannerErr.unexpectedFormat)
    else
      runIterations auto oracle fuel (stepTool auto oracle st)

/-- The planner entry point `generateRecordingPlan`, parameterized by the
Capability Port and the chat oracle; the iteration bound is the source's
`maxIterations = 100`.  Returns the final observable state together with
the plan or the thrown error. -/
def generateRecordingPlan (auto : MobileAutomationM) (oracle : Nat → ChatResultM) :
    PlanState × Except PlannerErr Json :=
  runIterations auto oracle 100 ⟨[], 0, 0, 0⟩

/-- One atomic UI interaction (`ActionStep` of `planner.ts`).  The optional
`target` object is flattened into its `x`/`y` coordinates; the optional
embedded `UIElement` reference does not participate in any embedded code
path and is omitted. -/
structure ActionStep where
  type : String
  description : String
  targetX : Option Int := none
  targetY : Option Int := none
  input : Option String := none
  direction : Option String := none
  button : Option String := none
  waitMs : Option Int := none
  verification : Option String := none
deriving DecidableEq, Repr

/-- Model-returned timing entry (`TimestampedActionSimple` of
`scriptwriter.ts`): an index into `recordingSteps` plus a millisecond
interval. -/
structure TimestampedActionSimple where
  actionIndex : Int
  startTime : Int
  endTime : Int
deriving DecidableEq, Repr

/-- Reconstructed timing entry (`TimestampedAction`): the full action
object plus the interval. -/
structure TimestampedAction where
  action : ActionStep
  startTime : Int
  endTime : Int
deriving DecidableEq, Repr

/-- Result of `generateScript` (`ScriptOutput`). -/
structure ScriptOutput where
  script : String
  totalDuration : Int
  timestampedActions : List TimestampedAction
deriving DecidableEq, Repr

/-- Input of `generateScript` (`ScriptWriterInput`). -/
structure ScriptWriterInput where
  prompt : String
  recordingSteps : List ActionStep
  videoTitle : Option String := none
  videoDescription : Option String := none
deriving DecidableEq, Repr

/-- The parsed JSON-mode model response consumed by `generateScript`
(the type argument of its `chatJSON` call). -/
structure ScriptModelResult where
  script : String
  totalDuration : Int
  timestampedActions : List TimestampedActionSimple
deriving DecidableEq, Repr

/-- JavaScript array indexing `steps[i]` with a possibly negative or
out-of-range number: `undefined` (`none`) outside `[0, steps.length)`. -/
def jsIndex (steps : List ActionStep) (i : Int) : Option ActionStep :=
  if i < 0 then none else steps[i.toNat]?

/-- The `Invalid actionIndex ...` error message of `scriptwriter.ts` line
104. -/
def invalidIndexMsg (i : Int) (len : Nat) : String :=
  "Invalid actionIndex " ++ toString i ++ " - recording has only " ++ toString len ++ " steps"

/-- Action reconstruction of `scriptwriter.ts` lines 101-111: look every
returned `actionIndex` up in the original input array, throwing on the
first falsy (out-of-range) lookup, and otherwise copy the interval
verbatim. -/
def reconstructActions (steps : List ActionStep) :
    List TimestampedActionSimple → Except String (List TimestampedAction)
  | [] => Except.ok []
  | ta :: rest =>
    match jsIndex steps ta.actionIndex with
    | none => Except.error (invalidIndexMsg ta.actionIndex steps.length)
    | some action =>
      match reconstructActions steps rest with
      | Except.ok xs => Except.ok (⟨action, ta.startTime, ta.endTime⟩ :: xs)
      | Except.error e => Except.error e

/-- The scriptwriter entry point `generateScript`, parameterized by the
parsed model response.  The count-mismatch check of lines 96-98 only logs a
warning; the reconstruction step is the sole source of failure modelled
here. -/
def generateScript (input : ScriptWriterInput) (modelResult : ScriptModelResult) :
    Except String ScriptOutput :=
  match reconstructActions input.recordingSteps modelResult.timestampedActions with
  | Except.error e => Except.error e
  | Except.ok tas =>
    Except.ok ⟨modelResult.script, modelResult.totalDuration, tas⟩

/-- A `jsIndex` lookup is `undefined` exactly outside `[0, steps.length)`. -/
theorem jsIndex_eq_none_iff (steps : List ActionStep) (i : Int) :
    jsIndex steps i = none ↔ (i < 0 ∨ (steps.length : Int) ≤ i) := by
  unfold jsIndex
  by_cases h : i < 0
  · simp [h]
  · simp only [h, if_false, List.getElem?_eq_none_iff, false_or]
    omega

/-- A successful `jsIndex` lookup certifies the in-range conditions and the
list access. -/
theorem jsIndex_eq_some (steps : List ActionStep) (i : Int) (a : ActionStep)
    (h : jsIndex steps i = some a) :
    0 ≤ i ∧ i < (steps.length : Int) ∧ steps[i.toNat]? = some a := by
  unfold jsIndex at h
  by_cases hneg : i < 0
  · simp [hneg] at h
  · simp only [hneg, if_false] at h
    have hlt : i.toNat < steps.length := by
      by_contra hge
      rw [List.getElem?_eq_none_iff.mpr (by omega)] at h
      exact Option.noConfusion h
    exact ⟨by omega, by omega, h⟩

/-- Pointwise description of a successful reconstruction: each output entry
comes from the input entry at the same position, with its `actionIndex`
resolved and its interval copied verbatim. -/
theorem reconstructActions_ok_get (steps : List ActionStep) :
    ∀ (tas : List TimestampedActionSimple) (out : List TimestampedAction),
      reconstructActions steps tas = Except.ok out →
      ∀ (i : Nat) (ta : TimestampedAction), out[i]? = some ta →
        ∃ sta, tas[i]? = some sta ∧
          jsIndex steps sta.actionIndex = some ta.action ∧
          ta.startTime = sta.startTime ∧ ta.endTime = sta.endTime := by
  intro tas
  induction tas with
  | nil =>
    intro out h i ta hget
    simp only [reconstructActions] at h
    injection h with h
    subst h
    simp at hget
  | cons hd tl ih =>
    intro out h i ta hget
    simp only [reconstructActions] at h
    cases hidx : jsIndex steps hd.actionIndex with
    | none => rw [hidx] at h; exact Except.noConfusion h
    | some action =>
      rw [hidx] at h
      cases hrec : reconstructActions steps tl with
      | error e => rw [hrec] at h; exact Except.noConfusion h
      | ok xs =>
        rw [hrec] at h
        injection h with h
        subst h
        cases i with
        | zero =>
          simp only [List.getElem?_cons_zero] at hget
          injection hget with hget
          subst hget
          exact ⟨hd, by simp, hidx, rfl, rfl⟩
        | succ n =>
          simp only [List.getElem?_cons_succ] at hget
          obtain ⟨sta, hsta, rest⟩ := ih xs hrec n ta hget
          exact ⟨sta, by simpa using hsta, rest⟩

/-- A successful reconstruction preserves the number of entries. -/
theorem reconstructActions_ok_length (steps : List ActionStep) :
    ∀ (tas : List TimestampedActionSimple) (out : List TimestampedAction),
      reconstructActions steps tas = Except.ok out →
      out.length = tas.length := by
  intro tas
  induction tas with
  | nil =>
    intro out h
    simp only [reconstructActions] at h
    injection h with h
    subst h
    rfl
  | cons hd tl ih =>
    intro out h
    simp only [reconstructActions] at h
    cases hidx : jsIndex steps hd.actionIndex with
    | none => rw [hidx] at h; exact Except.noConfusion h
    | some action =>
      rw [hidx] at h
      cases hrec : reconstructActions steps tl with
      | error e => rw [hrec] at h; exact Except.noConfusion h
      | ok xs =>
        rw [hrec] at h
        injection h with h
        subst h
        simp [ih xs hrec]

/-- Any unresolvable index among the returned entries makes the whole
reconstruction throw the `Invalid actionIndex` error (for the first such
entry). -/
theorem reconstructActions_err_of_bad (steps : List ActionStep) :
    ∀ (tas : List TimestampedActionSimple),
      (∃ sta ∈ tas, jsIndex steps sta.actionIndex = none) →
      ∃ bad, reconstructActions steps tas = Except.error (invalidIndexMsg bad steps.length) ∧
        jsIndex steps bad = none := by
  intro tas
  induction tas with
  | nil => intro h; simp at h
  | cons hd tl ih =>
    intro h
    cases hidx : jsIndex steps hd.actionIndex with
    | none =>
      refine ⟨hd.actionIndex, ?_, hidx⟩
      simp only [reconstructActions, hidx]
    | some action =>
      obtain ⟨sta, hmem, hnone⟩ := h
      rcases List.mem_cons.mp hmem with heq | htl
      · subst heq; rw [hidx] at hnone; exact Option.noConfusion hnone
      · obtain ⟨bad, herr, hbad⟩ := ih ⟨sta, htl, hnone⟩
        refine ⟨bad, ?_, hbad⟩
        simp only [reconstructActions, hidx, herr]

/-- C2: every entry of the model's returned `timestampedActions` has its
`actionIndex` looked up in the original input `recordingSteps`: on success
the `i`-th output action is exactly the input step at the `i`-th returned
index, which lies in `[0, recordingSteps.length)`; any entry whose index
falls outside that range makes `generateScript` throw the hard
`Invalid actionIndex` range error (for the first such entry), never clamped
or dropped. -/
theorem C2_index_integrity (input : ScriptWriterInput) (res : ScriptModelResult) :
    (∀ out, generateScript input res = Except.ok out →
      ∀ (i : Nat) (ta : TimestampedAction), out.timestampedActions[i]? = some ta →
        ∃ sta, res.timestampedActions[i]? = some sta ∧
          0 ≤ sta.actionIndex ∧ sta.actionIndex < (input.recordingSteps.length : Int) ∧
          input.recordingSteps[sta.actionIndex.toNat]? = some ta.action)
    ∧ ((∃ sta ∈ res.timestampedActions,
          sta.actionIndex < 0 ∨ (input.recordingSteps.length : Int) ≤ sta.actionIndex) →
        ∃ bad, generateScript input res =
            Except.error (invalidIndexMsg bad input.recordingSteps.length) ∧
          (bad < 0 ∨ (input.recordingSteps.length : Int) ≤ bad)) := by
  constructor
  · intro out h i ta hget
    unfold generateScript at h
    cases hrec : reconstructActions input.recordingSteps res.timestampedActions with
    | error e => rw [hrec] at h; exact Except.noConfusion h
    | ok tas =>
      rw [hrec] at h
      injection h with h
      subst h
      obtain ⟨sta, hsta, hidx, _, _⟩ :=
        reconstructActions_ok_get input.recordingSteps res.timestampedActions tas hrec i ta hget
      obtain ⟨h0, hlt, hacc⟩ := jsIndex_eq_some _ _ _ hidx
      exact ⟨sta, hsta, h0, hlt, hacc⟩
  · intro h
    obtain ⟨sta, hmem, hrange⟩ := h
    have hnone : jsIndex input.recordingSteps sta.actionIndex = none :=
      (jsIndex_eq_none_iff _ _).mpr hrange
    obtain ⟨bad, herr, hbad⟩ :=
      reconstructActions_err_of_bad input.recordingSteps res.timestampedActions ⟨sta, hmem, hnone⟩
    refine ⟨bad, ?_, (jsIndex_eq_none_iff _ _).mp hbad⟩
    unfold generateScript
    rw [herr]

/-- Concrete scriptwriter input with a single recording step. -/
def wStep7 : ActionStep := { type := "tap", description := "Tap the button" }

/-- Concrete scriptwriter input wrapper around `wStep7`. -/
def wIn7 : ScriptWriterInput := { prompt := "p", recordingSteps := [wStep7] }

/-- Model response whose single interval is inverted
(`endTime = 0 < startTime = 5`). -/
def wRes7 : ScriptModelResult :=
  { script := "s", totalDuration := 5000, timestampedActions := [⟨0, 5, 0⟩] }

/-- Model response with an out-of-range `actionIndex` against `wIn7`. -/
def wResBad : ScriptModelResult :=
  { script := "s", totalDuration := 5000, timestampedActions := [⟨5, 0, 1⟩] }

/-- The expected output of `generateScript wIn7 wRes7`. -/
def wOut7 : ScriptOutput :=
  { script := "s", totalDuration := 5000, timestampedActions := [⟨wStep7, 5, 0⟩] }

/-- Boolean form of the claimed `endTime > startTime` invariant. -/
def intervalsPositive (out : ScriptOutput) : Bool :=
  out.timestampedActions.all fun ta => decide (ta.startTime < ta.endTime)

/-- C2 witness: on a 1-step recording with returned index `5`,
`generateScript` throws the index-range error. -/
theorem C2_index_integrity_witness :
    ∃ bad, generateScript wIn7 wResBad =
        Except.error (invalidIndexMsg bad wIn7.recordingSteps.length) ∧
      (bad < 0 ∨ (wIn7.recordingSteps.length : Int) ≤ bad) :=
  (C2_index_integrity wIn7 wResBad).2 ⟨⟨5, 0, 1⟩, by decide, by decide⟩

/-- C7 counterexample: the code accepts and returns a model interval with
`endTime ≤ startTime` unchanged, so the claimed `endTime > startTime`
invariant fails on the result. -/
theorem C7_interval_invariant_cex :
    generateScript wIn7 wRes7 = Except.ok wOut7 ∧ intervalsPositive wOut7 = false :=
  ⟨rfl, rfl⟩

/-- C7 (amended): `generateScript` copies every `startTime`/`endTime` pair
verbatim from the model response without validating it, so the result
satisfies `endTime > startTime` everywhere exactly when the model response
already did. -/
theorem C7_intervals_copied_verbatim (input : ScriptWriterInput) (res : ScriptModelResult)
    (out : ScriptOutput) (h : generateScript input res = Except.ok out) :
    (∀ (i : Nat) (ta : TimestampedAction), out.timestampedActions[i]? = some ta →
      ∃ sta, res.timestampedActions[i]? = some sta ∧
        ta.startTime = sta.startTime ∧ ta.endTime = sta.endTime)
    ∧ ((∀ ta ∈ out.timestampedActions, ta.startTime < ta.endTime) ↔
        (∀ sta ∈ res.timestampedActions, sta.startTime < sta.endTime)) := by
  unfold generateScript at h
  cases hrec : reconstructActions input.recordingSteps res.timestampedActions with
  | error e => rw [hrec] at h; exact Except.noConfusion h
  | ok tas =>
    rw [hrec] at h
    injection h with h
    subst h
    have hlen := reconstructActions_ok_length input.recordingSteps res.timestampedActions tas hrec
    have hpt := reconstructActions_ok_get input.recordingSteps res.timestampedActions tas hrec
    constructor
    · intro i ta hget
      obtain ⟨sta, hsta, _, hst, hen⟩ := hpt i ta hget
      exact ⟨sta, hsta, hst, hen⟩
    · constructor
      · intro hall sta hmem
        obtain ⟨i, hi⟩ := List.mem_iff_getElem?.mp hmem
        have hi_len := (List.getElem?_eq_some_iff.mp hi).1
        have hi_lt : i < tas.length := by omega
        have hta : tas[i]? = some (tas[i]) := List.getElem?_eq_some_iff.mpr ⟨hi_lt, rfl⟩
        obtain ⟨sta', hsta', _, hst, hen⟩ := hpt i (tas[i]) hta
        rw [hi] at hsta'
        injection hsta' with hsta'
        subst hsta'
        have := hall (tas[i]) (List.mem_iff_getElem?.mpr ⟨i, hta⟩)
        omega
      · intro hall ta hmem
        obtain ⟨i, hi⟩ := List.mem_iff_getElem?.mp hmem
        obtain ⟨sta, hsta, hst, hen⟩ := hpt i ta hi
        have := hall sta (List.mem_iff_getElem?.mpr ⟨i, hsta⟩)
        omega

/-- C7 amended-claim witness: a run whose model intervals are all positive
yields outputs whose intervals are positive. -/
theorem C7_intervals_copied_verbatim_witness :
    ∃ sta, wRes7.timestampedActions[0]? = some sta ∧
      (5 : Int) = sta.startTime ∧ (0 : Int) = sta.endTime :=
  (C7_intervals_copied_verbatim wIn7 wRes7 wOut7 rfl).1 0 ⟨wStep7, 5, 0⟩ rfl

/-- Iterated tool-processing steps of the planner loop. -/
def advState (auto : MobileAutomationM) (oracle : Nat → ChatResultM) :
    Nat → PlanState → PlanState
  | 0, st => st
  | k + 1, st => advState auto oracle k (stepTool auto oracle st)

/-- Each tool-processing step makes exactly one chat call. -/
theorem advState_chatCalls (auto : MobileAutomationM) (oracle : Nat → ChatResultM) :
    ∀ (k : Nat) (st : PlanState), (advState auto oracle k st).chatCalls = st.chatCalls + k := by
  intro k
  induction k with
  | zero => intro st; rfl
  | succ k ih =>
    intro st
    show (advState auto oracle k (stepTool auto oracle st)).chatCalls = _
    rw [ih]
    simp only [stepTool]
    omega

/-- Tool-processing steps never touch the cleanup counters. -/
theorem advState_cleanupCalls (auto : MobileAutomationM) (oracle : Nat → ChatResultM) :
    ∀ (k : Nat) (st : PlanState),
      (advState auto oracle k st).terminateCalls = st.terminateCalls ∧
      (advState auto oracle k st).pressHomeCalls = st.pressHomeCalls := by
  intro k
  induction k with
  | zero => intro st; exact ⟨rfl, rfl⟩
  | succ k ih =>
    intro st
    exact ⟨((ih (stepTool auto oracle st)).1).trans rfl,
           ((ih (stepTool auto oracle st)).2).trans rfl⟩

/-- Unfolding one tool-call iteration of the planner loop. -/
theorem runIterations_step_tools (auto : MobileAutomationM) (oracle : Nat → ChatResultM)
    (fuel : Nat) (st : PlanState)
    (h : (oracle st.chatCalls).toolCalls.isEmpty = false) :
    runIterations auto oracle (fuel + 1) st =
      runIterations auto oracle fuel (stepTool auto oracle st) := by
  simp only [runIterations, h, Bool.false_eq_true, if_false]

/-- A run whose first `k` chat responses all carry tool calls advances `k`
tool iterations. -/
theorem runIterations_advance (auto : MobileAutomationM) (oracle : Nat → ChatResultM) :
    ∀ (k fuel : Nat) (st : PlanState), k ≤ fuel →
      (∀ j, j < k → ((oracle (st.chatCalls + j)).toolCalls.isEmpty = false)) →
      runIterations auto oracle fuel st =
        runIterations auto oracle (fuel - k) (advState auto oracle k st) := by
  intro k
  induction k with
  | zero => intro fuel st _ _; simp [advState]
  | succ k ih =>
    intro fuel st hk htools
    cases fuel with
    | zero => omega
    | succ f =>
      have h0 : (oracle st.chatCalls).toolCalls.isEmpty = false := by
        simpa using htools 0 (by omega)
      rw [runIterations_step_tools auto oracle f st h0]
      have harg : ∀ j, j < k →
          ((oracle ((stepTool auto oracle st).chatCalls + j)).toolCalls.isEmpty = false) := by
        intro j hj
        have hcc : (stepTool auto oracle st).chatCalls = st.chatCalls + 1 := rfl
        have heq : st.chatCalls + 1 + j = st.chatCalls + (j + 1) := by omega
        rw [hcc, heq]
        exact htools (j + 1) (by omega)
      rw [ih f (stepTool auto oracle st) (by omega) harg]
      have h2 : f + 1 - (k + 1) = f - k := by omega
      rw [h2]
      rfl

/-- A run whose first `k` responses carry tool calls and whose `(k+1)`-st
response is a truthy final text answer ends in plan finalization on that
answer. -/
theorem generateRecordingPlan_final (auto : MobileAutomationM) (oracle : Nat → ChatResultM)
    (k : Nat) (hk : k < 100)
    (htools : ∀ j, j < k → ((oracle j).toolCalls.isEmpty = false))
    (hfin : (oracle k).toolCalls.isEmpty = true)
    (c : String) (hc : (oracle k).content = some c) (hne : c ≠ "") :
    generateRecordingPlan auto oracle =
      finalizePlan auto oracle ⟨Role.assistant, c⟩ c
        { advState auto oracle k ⟨[], 0, 0, 0⟩ with chatCalls := k + 1 } := by
  unfold generateRecordingPlan
  rw [runIterations_advance auto oracle k 100 ⟨[], 0, 0, 0⟩ (by omega) (by simpa using htools)]
  obtain ⟨m, hm⟩ : ∃ m, 100 - k = m + 1 := ⟨99 - k, by omega⟩
  rw [hm]
  have hcc : (advState auto oracle k ⟨[], 0, 0, 0⟩).chatCalls = k :=
    by simpa using advState_chatCalls auto oracle k ⟨[], 0, 0, 0⟩
  simp only [runIterations, hcc, hfin, if_true, hc]
  have : (c == "") = false := by
    simpa using hne
  rw [this]
  simp only [Bool.false_eq_true, if_false]

/-- The cleanup always invokes `terminateAllApps` exactly once. -/
theorem runCleanup_terminateCalls (auto : MobileAutomationM) (st : PlanState) :
    (runCleanup auto st).terminateCalls = st.terminateCalls + 1 := by
  unfold runCleanup
  cases auto.terminateAllApps with
  | error e => rfl
  | ok u => cases auto.pressButton "home" with
    | error e => rfl
    | ok u => rfl

/-- When `terminateAllApps` succeeds the cleanup presses home exactly
once. -/
theorem runCleanup_pressHome (auto : MobileAutomationM) (st : PlanState)
    (h : auto.terminateAllApps = Except.ok ()) :
    (runCleanup auto st).pressHomeCalls = st.pressHomeCalls + 1 := by
  unfold runCleanup
  rw [h]
  cases auto.pressButton "home" with
  | error e => rfl
  | ok u => rfl

/-- A pure field hit implies the same result through the throwing property
read. -/
theorem jsGetPure_to_field (p : Json) (k : String) (v : Json)
    (h : jsGetPure p k = some v) : jsGetField p k = Except.ok (some v) := by
  cases p <;> simp only [jsGetPure] at h <;> try exact Option.noConfusion h
  simp only [jsGetField, h]

/-- A parsed plan whose `recordingSteps` field is the empty array trips the
validation gate with the distinct `recordingSteps is empty` message. -/
theorem extractAndValidate_empty (c : String) (plan : Json)
    (hparse : jsonParse (extractPlanString c) = some plan)
    (hempty : jsGetPure plan "recordingSteps" = some (Json.arr [])) :
    extractAndValidate c = Except.error (PlannerErr.validation emptyStepsMsg) := by
  have hfield := jsGetPure_to_field plan "recordingSteps" (Json.arr []) hempty
  have hlen : recordingStepsLenZero plan = Except.ok true := by
    unfold recordingStepsLenZero
    rw [hfield]
    rfl
  simp only [extractAndValidate, hparse, hlen]

/-- The effective final-answer content finalization works on: the answer
itself when it looks like JSON, otherwise the forced-JSON follow-up call's
content. -/
def effectiveContent (oracle : Nat → ChatResultM) (c : String) (idx : Nat) : String :=
  if looksLikeJson c then c else ((oracle idx).content.getD "")

/-- Plan finalization propagates an extraction/validation error on the
effective content. -/
theorem finalizePlan_err (auto : MobileAutomationM) (oracle : Nat → ChatResultM)
    (a : Msg) (c : String) (st : PlanState) (e : PlannerErr)
    (h : extractAndValidate (effectiveContent oracle c st.chatCalls) = Except.error e) :
    (finalizePlan auto oracle a c st).2 = Except.error e := by
  unfold finalizePlan
  unfold effectiveContent at h
  cases hl : looksLikeJson c with
  | true =>
    rw [hl] at h
    simp only [if_true] at h
    simp only [hl, if_true]
    rw [h]
  | false =>
    rw [hl] at h
    simp only [Bool.false_eq_true, if_false] at h
    simp only [hl, Bool.false_eq_true, if_false]
    rw [h]

/-- Plan finalization on a validated plan returns it and performs the
cleanup side effect on top of the incoming state. -/
theorem finalizePlan_ok (auto : MobileAutomationM) (oracle : Nat → ChatResultM)
    (a : Msg) (c : String) (st : PlanState) (plan : Json)
    (h : extractAndValidate (effectiveContent oracle c st.chatCalls) = Except.ok plan) :
    (finalizePlan auto oracle a c st).2 = Except.ok plan ∧
    (finalizePlan auto oracle a c st).1.terminateCalls = st.terminateCalls + 1 ∧
    (auto.terminateAllApps = Except.ok () →
      (finalizePlan auto oracle a c st).1.pressHomeCalls = st.pressHomeCalls + 1) := by
  unfold finalizePlan
  unfold effectiveContent at h
  cases hl : looksLikeJson c with
  | true =>
    rw [hl] at h
    simp only [if_true] at h
    simp only [hl, if_true]
    rw [h]
    exact ⟨rfl, runCleanup_terminateCalls auto st, fun hok => runCleanup_pressHome auto st hok⟩
  | false =>
    rw [hl] at h
    simp only [Bool.false_eq_true, if_false] at h
    simp only [hl, Bool.false_eq_true, if_false]
    rw [h]
    refine ⟨rfl, ?_, ?_⟩
    · exact runCleanup_terminateCalls auto _
    · intro hok
      exact runCleanup_pressHome auto _ hok

/-- C1: whenever the planner's final model answer (after the optional
forced-JSON follow-up) parses to a plan whose `recordingSteps` is the empty
array, `generateRecordingPlan` fails with the validation error whose
message contains `recordingSteps is empty`, regardless of how many
tool-call iterations preceded the final answer; the syntactically valid
empty plan is never returned as success. -/
theorem C1_empty_recordingSteps_rejected (auto : MobileAutomationM)
    (oracle : Nat → ChatResultM) (k : Nat) (hk : k < 100)
    (htools : ∀ j, j < k → ((oracle j).toolCalls.isEmpty = false))
    (hfin : (oracle k).toolCalls.isEmpty = true)
    (c : String) (hc : (oracle k).content = some c) (hne : c ≠ "")
    (plan : Json)
    (hparse : jsonParse (extractPlanString (effectiveContent oracle c (k + 1))) = some plan)
    (hempty : jsGetPure plan "recordingSteps" = some (Json.arr [])) :
    (generateRecordingPlan auto oracle).2 =
      Except.error (PlannerErr.validation emptyStepsMsg) ∧
    ∃ pre post, emptyStepsMsg = pre ++ "recordingSteps is empty" ++ post := by
  constructor
  · rw [generateRecordingPlan_final auto oracle k hk htools hfin c hc hne]
    exact finalizePlan_err auto oracle ⟨Role.assistant, c⟩ c _ _
      (extractAndValidate_empty _ plan hparse hempty)
  · exact ⟨"Plan validation failed: ",
      ". The planner must physically test the workflow and create actionable steps.", rfl⟩

/-- C3: a model that answers every one of the first 100 requests with tool
calls drives the loop through exactly 100 chat round-trips and then the
run fails with the max-iterations error instead of looping on. -/
theorem C3_iteration_bound (auto : MobileAutomationM) (oracle : Nat → ChatResultM)
    (h : ∀ j, j < 100 → ((oracle j).toolCalls.isEmpty = false)) :
    (generateRecordingPlan auto oracle).2 = Except.error PlannerErr.maxIterations ∧
    (generateRecordingPlan auto oracle).1.chatCalls = 100 := by
  unfold generateRecordingPlan
  rw [runIterations_advance auto oracle 100 100 ⟨[], 0, 0, 0⟩ (le_refl 100) (by simpa using h)]
  refine ⟨rfl, ?_⟩
  simpa using advState_chatCalls auto oracle 100 ⟨[], 0, 0, 0⟩

/-- C8: once the final answer extracts and validates, the run returns that
plan and performs the cleanup side effect: `terminateAllApps` is invoked
exactly once unconditionally, `pressButton home` exactly once when the
former succeeded, and a cleanup failure never invalidates the plan (the
success conclusion holds for every Capability Port behaviour). -/
theorem C8_cleanup_after_success (auto : MobileAutomationM)
    (oracle : Nat → ChatResultM) (k : Nat) (hk : k < 100)
    (htools : ∀ j, j < k → ((oracle j).toolCalls.isEmpty = false))
    (hfin : (oracle k).toolCalls.isEmpty = true)
    (c : String) (hc : (oracle k).content = some c) (hne : c ≠ "")
    (plan : Json)
    (hval : extractAndValidate (effectiveContent oracle c (k + 1)) = Except.ok plan) :
    (generateRecordingPlan auto oracle).2 = Except.ok plan ∧
    (generateRecordingPlan auto oracle).1.terminateCalls = 1 ∧
    (auto.terminateAllApps = Except.ok () →
      (generateRecordingPlan auto oracle).1.pressHomeCalls = 1) := by
  rw [generateRecordingPlan_final auto oracle k hk htools hfin c hc hne]
  obtain ⟨h1, h2, h3⟩ := finalizePlan_ok auto oracle ⟨Role.assistant, c⟩ c
    { advState auto oracle k ⟨[], 0, 0, 0⟩ with chatCalls := k + 1 } plan hval
  refine ⟨h1, ?_, ?_⟩
  · rw [h2]
    rw [show ({ advState auto oracle k ⟨[], 0, 0, 0⟩ with chatCalls := k + 1 } :
        PlanState).terminateCalls = 0 from
      (advState_cleanupCalls auto oracle k ⟨[], 0, 0, 0⟩).1]
  · intro hok
    rw [h3 hok]
    rw [show ({ advState auto oracle k ⟨[], 0, 0, 0⟩ with chatCalls := k + 1 } :
        PlanState).pressHomeCalls = 0 from
      (advState_cleanupCalls auto oracle k ⟨[], 0, 0, 0⟩).2]

/-- C9 (amended): a final answer parsing to an object without a
`recordingSteps` field makes the run fail with the JavaScript TypeError
from reading `.length` of `undefined`, not the validation message; and the
validation message arises exactly from a parsed plan whose
`recordingSteps.length` evaluates to `0` — which includes the empty array
but also degenerate non-array values such as the empty string. -/
theorem C9_missing_recordingSteps_type_error (auto : MobileAutomationM)
    (oracle : Nat → ChatResultM) (k : Nat) (hk : k < 100)
    (htools : ∀ j, j < k → ((oracle j).toolCalls.isEmpty = false))
    (hfin : (oracle k).toolCalls.isEmpty = true)
    (c : String) (hc : (oracle k).content = some c) (hne : c ≠ "")
    (fields : List (String × Json))
    (hparse : jsonParse (extractPlanString (effectiveContent oracle c (k + 1))) =
      some (Json.obj fields))
    (habs : lookupField fields "recordingSteps" = none) :
    (generateRecordingPlan auto oracle).2 = Except.error
      (PlannerErr.jsError "TypeError: Cannot read properties of undefined (reading 'length')") ∧
    (∀ c', extractAndValidate c' = Except.error (PlannerErr.validation emptyStepsMsg) →
      ∃ plan, jsonParse (extractPlanString c') = some plan ∧
        recordingStepsLenZero plan = Except.ok true) := by
  constructor
  · have hlen : recordingStepsLenZero (Json.obj fields) =
        Except.error "TypeError: Cannot read properties of undefined (reading 'length')" := by
      unfold recordingStepsLenZero
      simp only [jsGetField, habs]
    have hexv : extractAndValidate (effectiveContent oracle c (k + 1)) = Except.error
        (PlannerErr.jsError
          "TypeError: Cannot read properties of undefined (reading 'length')") := by
      simp only [extractAndValidate, hparse, hlen]
    rw [generateRecordingPlan_final auto oracle k hk htools hfin c hc hne]
    exact finalizePlan_err auto oracle ⟨Role.assistant, c⟩ c _ _ hexv
  · intro c' hc'
    simp only [extractAndValidate] at hc'
    cases hp : jsonParse (extractPlanString c') with
    | none => rw [hp] at hc'; simp at hc'
    | some plan =>
      rw [hp] at hc'
      cases hz : recordingStepsLenZero plan with
      | error m => simp [hz] at hc'
      | ok b =>
        cases b with
        | false => simp [hz] at hc'
        | true => exact ⟨plan, rfl, hz⟩

/-- Capability Port whose every operation succeeds with the payloads the
test suite uses. -/
def trivialAuto : MobileAutomationM where
  takeScreenshot := Except.ok (Json.obj
    [("screenshot", Json.str "base64data"), ("format", Json.str "png"),
     ("width", Json.num 393), ("height", Json.num 852)])
  listElements := Except.ok (Json.obj [("elements", Json.arr [])])
  tapAt := fun _ _ => Except.ok (Json.obj [("success", Json.bool true)])
  swipe := fun _ => Except.ok (Json.obj [("success", Json.bool true)])
  typeText := fun _ _ => Except.ok (Json.obj [("success", Json.bool true)])
  terminateAllApps := Except.ok ()
  pressButton := fun _ => Except.ok ()

/-- A chat response carrying one screenshot tool call and no text. -/
def toolResp : ChatResultM :=
  { content := none, toolCalls := [⟨"call-1", "mobile_take_screenshot", "\x7b\x7d"⟩] }

/-- A syntactically valid final plan answer with one recording step. -/
def goodPlanContent : String :=
  "\x7b\"title\":\"T\",\"description\":\"D\",\"setupSteps\":[],\"recordingSteps\":[\x7b\"type\":\"tap\",\"description\":\"x\"\x7d],\"estimatedDurationSeconds\":10,\"screenshots\":[]\x7d"

/-- The JSON value `goodPlanContent` parses to. -/
def goodPlanJson : Json :=
  Json.obj
    [("title", Json.str "T"), ("description", Json.str "D"),
     ("setupSteps", Json.arr []),
     ("recordingSteps", Json.arr [Json.obj [("type", Json.str "tap"), ("description", Json.str "x")]]),
     ("estimatedDurationSeconds", Json.num 10), ("screenshots", Json.arr [])]

/-- A final answer whose plan has an empty `recordingSteps` array. -/
def emptyPlanContent : String :=
  "\x7b\"title\":\"T\",\"recordingSteps\":[]\x7d"

/-- Oracle for the C1 witness: one tool-call turn, then the empty plan. -/
def wOracleC1 : Nat → ChatResultM := fun n =>
  if n == 0 then toolResp else { content := some emptyPlanContent, toolCalls := [] }

set_option maxRecDepth 40000 in
/-- C1 witness: after one tool-call round a final `recordingSteps: []`
answer is rejected with the distinct validation message. -/
theorem C1_empty_recordingSteps_rejected_witness :
    (generateRecordingPlan trivialAuto wOracleC1).2 =
      Except.error (PlannerErr.validation emptyStepsMsg) ∧
    ∃ pre post, emptyStepsMsg = pre ++ "recordingSteps is empty" ++ post :=
  C1_empty_recordingSteps_rejected trivialAuto wOracleC1 1 (by omega)
    (by intro j hj; have hj0 : j = 0 := (by omega); subst hj0; rfl)
    rfl emptyPlanContent rfl (by decide)
    (Json.obj [("title", Json.str "T"), ("recordingSteps", Json.arr [])]) rfl rfl

/-- Oracle that answers every request with tool calls. -/
def wOracleLoop : Nat → ChatResultM := fun _ => toolResp

/-- C3 witness: the always-tool-calling oracle exhausts the bound after
exactly 100 chat calls. -/
theorem C3_iteration_bound_witness :
    (generateRecordingPlan trivialAuto wOracleLoop).2 =
      Except.error PlannerErr.maxIterations ∧
    (generateRecordingPlan trivialAuto wOracleLoop).1.chatCalls = 100 :=
  C3_iteration_bound trivialAuto wOracleLoop (by intro j hj; rfl)

/-- Oracle that immediately produces the good final plan. -/
def wOracleC8 : Nat → ChatResultM := fun _ =>
  { content := some goodPlanContent, toolCalls := [] }

set_option maxRecDepth 40000 in
/-- C8 witness: a validated plan is returned and the cleanup ran once. -/
theorem C8_cleanup_after_success_witness :
    (generateRecordingPlan trivialAuto wOracleC8).2 = Except.ok goodPlanJson ∧
    (generateRecordingPlan trivialAuto wOracleC8).1.terminateCalls = 1 ∧
    (generateRecordingPlan trivialAuto wOracleC8).1.pressHomeCalls = 1 := by
  obtain ⟨h1, h2, h3⟩ := C8_cleanup_after_success trivialAuto wOracleC8 0 (by omega)
    (by intro j hj; exact absurd hj (Nat.not_lt_zero j))
    rfl goodPlanContent rfl (by decide) goodPlanJson rfl
  exact ⟨h1, h2, h3 rfl⟩

/-- A final answer that parses to an object without `recordingSteps`. -/
def noStepsContent : String := "\x7b\"title\":\"T\"\x7d"

/-- Oracle that immediately produces `noStepsContent`. -/
def wOracleC9 : Nat → ChatResultM := fun _ =>
  { content := some noStepsContent, toolCalls := [] }

set_option maxRecDepth 40000 in
/-- C9 witness: a plan object lacking `recordingSteps` produces the
TypeError, not the validation message. -/
theorem C9_missing_recordingSteps_type_error_witness :
    (generateRecordingPlan trivialAuto wOracleC9).2 = Except.error
      (PlannerErr.jsError "TypeError: Cannot read properties of undefined (reading 'length')") ∧
    (∀ c', extractAndValidate c' = Except.error (PlannerErr.validation emptyStepsMsg) →
      ∃ plan, jsonParse (extractPlanString c') = some plan ∧
        recordingStepsLenZero plan = Except.ok true) :=
  C9_missing_recordingSteps_type_error trivialAuto wOracleC9 0 (by omega)
    (by intro j hj; exact absurd hj (Nat.not_lt_zero j))
    rfl noStepsContent rfl (by decide) [("title", Json.str "T")] rfl rfl

/-- Oracle for the C4 counterexample: a turn with an unknown tool name,
then the good final plan. -/
def wOracleC4 : Nat → ChatResultM := fun n =>
  if n == 0 then
    { content := none, toolCalls := [⟨"call-1", "definitely_not_a_tool", "\x7b\x7d"⟩] }
  else { content := some goodPlanContent, toolCalls := [] }

set_option maxRecDepth 40000 in
/-- C4 counterexample: the tool dispatcher does throw `Unknown tool`, but
the conversation loop catches it like any tool failure, so a run that
emits an unknown tool call and then a valid plan succeeds — the unknown
tool is not fatal and the conversation continues past it, contrary to the
claim. -/
theorem C4_unknown_tool_not_fatal_cex :
    executeMCPTool "definitely_not_a_tool" (Json.obj []) trivialAuto =
      Except.error "Unknown tool: definitely_not_a_tool" ∧
    (generateRecordingPlan trivialAuto wOracleC4).2 = Except.ok goodPlanJson :=
  ⟨rfl, rfl⟩

/-- C4 (amended): a tool call whose name is outside the closed set of five
mobile tools makes `executeMCPTool` throw `Unknown tool`, but
`generateRecordingPlan` catches that error inside the dispatch loop,
appends a `tool` message carrying it, and continues the conversation —
the run is not terminated by the unknown tool call. -/
theorem C4_unknown_tool_caught (auto : MobileAutomationM) (tc : ToolCallM)
    (h1 : tc.name ≠ "mobile_take_screenshot")
    (h2 : tc.name ≠ "mobile_list_elements_on_screen")
    (h3 : tc.name ≠ "mobile_click_on_screen_at_coordinates")
    (h4 : tc.name ≠ "mobile_swipe_on_screen")
    (h5 : tc.name ≠ "mobile_type_keys") :
    executeMCPTool tc.name (parseToolArgs tc.args) auto =
      Except.error ("Unknown tool: " ++ tc.name) ∧
    toolMessages auto tc =
      [⟨Role.tool, jsonStringify (Json.obj [("error", Json.str ("Unknown tool: " ++ tc.name))])⟩] ∧
    (∀ (oracle : Nat → ChatResultM) (fuel : Nat) (st : PlanState),
      ((oracle st.chatCalls).toolCalls.isEmpty = false) →
      runIterations auto oracle (fuel + 1) st =
        runIterations auto oracle fuel (stepTool auto oracle st)) := by
  have hexec : executeMCPTool tc.name (parseToolArgs tc.args) auto =
      Except.error ("Unknown tool: " ++ tc.name) := by
    unfold executeMCPTool
    simp [h1, h2, h3, h4, h5]
  refine ⟨hexec, ?_, ?_⟩
  · unfold toolMessages
    rw [hexec]
  · intro oracle fuel st h
    exact runIterations_step_tools auto oracle fuel st h

/-- The unknown-tool call used by the C4 witness. -/
def wBadCall : ToolCallM := ⟨"call-1", "definitely_not_a_tool", "\x7b\x7d"⟩

/-- C4 amended-claim witness at a concrete unknown tool call. -/
theorem C4_unknown_tool_caught_witness :
    executeMCPTool wBadCall.name (parseToolArgs wBadCall.args) trivialAuto =
      Except.error ("Unknown tool: " ++ wBadCall.name) ∧
    toolMessages trivialAuto wBadCall =
      [⟨Role.tool, jsonStringify (Json.obj
        [("error", Json.str ("Unknown tool: " ++ wBadCall.name))])⟩] :=
  ⟨(C4_unknown_tool_caught trivialAuto wBadCall (by decide) (by decide) (by decide)
      (by decide) (by decide)).1,
   (C4_unknown_tool_caught trivialAuto wBadCall (by decide) (by decide) (by decide)
      (by decide) (by decide)).2.1⟩

/-- C6: a present-but-malformed tool arguments string is replaced by the
empty argument object and the tool is still dispatched — the call behaves
exactly like the same call with literal `\x7b\x7d` arguments, and the
conversation loop continues to its next iteration rather than aborting. -/
theorem C6_malformed_args_degrade (auto : MobileAutomationM) (tc : ToolCallM)
    (hne : strTrim tc.args ≠ "") (hbad : jsonParse tc.args = none) :
    parseToolArgs tc.args = Json.obj [] ∧
    toolMessages auto tc = toolMessages auto ⟨tc.id, tc.name, "\x7b\x7d"⟩ ∧
    (∀ (oracle : Nat → ChatResultM) (fuel : Nat) (st : PlanState),
      ((oracle st.chatCalls).toolCalls.isEmpty = false) →
      runIterations auto oracle (fuel + 1) st =
        runIterations auto oracle fuel (stepTool auto oracle st)) := by
  have hargs : parseToolArgs tc.args = Json.obj [] := by
    simp [parseToolArgs, hbad, hne]
  refine ⟨hargs, ?_, ?_⟩
  · unfold toolMessages
    rw [hargs]
    rfl
  · intro oracle fuel st h
    exact runIterations_step_tools auto oracle fuel st h

/-- The malformed tool call used by the C6 witness. -/
def wMalformedCall : ToolCallM := ⟨"call-3", "mobile_list_elements_on_screen", "\x7bnot json"⟩

/-- C6 witness at a concrete malformed arguments string. -/
theorem C6_malformed_args_degrade_witness :
    parseToolArgs wMalformedCall.args = Json.obj [] ∧
    toolMessages trivialAuto wMalformedCall =
      toolMessages trivialAuto ⟨wMalformedCall.id, wMalformedCall.name, "\x7b\x7d"⟩ :=
  ⟨(C6_malformed_args_degrade trivialAuto wMalformedCall (by decide) rfl).1,
   (C6_malformed_args_degrade trivialAuto wMalformedCall (by decide) rfl).2.1⟩

/-- C10: a tool call whose Capability Port execution throws is caught: the
planner appends a `tool` message whose content is the stringified JSON
object carrying the error message, and the loop proceeds to its next
iteration — a tool execution failure never by itself terminates the run. -/
theorem C10_tool_failure_nonfatal (auto : MobileAutomationM) (tc : ToolCallM) (msg : String)
    (hexec : executeMCPTool tc.name (parseToolArgs tc.args) auto = Except.error msg) :
    toolMessages auto tc =
      [⟨Role.tool, jsonStringify (Json.obj [("error", Json.str msg)])⟩] ∧
    (∀ (oracle : Nat → ChatResultM) (fuel : Nat) (st : PlanState),
      ((oracle st.chatCalls).toolCalls.isEmpty = false) →
      runIterations auto oracle (fuel + 1) st =
        runIterations auto oracle fuel (stepTool auto oracle st)) := by
  refine ⟨?_, ?_⟩
  · unfold toolMessages
    rw [hexec]
  · intro oracle fuel st h
    exact runIterations_step_tools auto oracle fuel st h

/-- Capability Port whose tap operation fails. -/
def failTapAuto : MobileAutomationM :=
  { trivialAuto with tapAt := fun _ _ => Except.error "tap failed" }

/-- The tap tool call used by the C10 witness. -/
def wTapCall : ToolCallM :=
  ⟨"call-2", "mobile_click_on_screen_at_coordinates", "\x7b\"x\":10,\"y\":20\x7d"⟩

/-- Oracle that always emits the failing tap call. -/
def wOracleTap : Nat → ChatResultM := fun _ => { content := none, toolCalls := [wTapCall] }

/-- C10 witness: the failing tap produces the error-carrying tool message
and the loop still takes its continuation step. -/
theorem C10_tool_failure_nonfatal_witness :
    toolMessages failTapAuto wTapCall =
      [⟨Role.tool, jsonStringify (Json.obj [("error", Json.str "tap failed")])⟩] ∧
    runIterations failTapAuto wOracleTap 1 ⟨[], 0, 0, 0⟩ =
      runIterations failTapAuto wOracleTap 0 (stepTool failTapAuto wOracleTap ⟨[], 0, 0, 0⟩) :=
  ⟨(C10_tool_failure_nonfatal failTapAuto wTapCall "tap failed" rfl).1,
   (C10_tool_failure_nonfatal failTapAuto wTapCall "tap failed" rfl).2 wOracleTap 0 ⟨[], 0, 0, 0⟩ rfl⟩

/-- Content whose fenced block holds unparseable text while the later
brace-span candidate parses. -/
def cexC5a : String := "```json\nnot json\n``` \x7b\"a\":1\x7d"

/-- Content with two adjacent JSON objects: the greedy first-`\x7b` to
last-`\x7d` span does not parse although its first brace-balanced span
does. -/
def cexC5b : String := "x \x7b\"a\":1\x7d \x7b\"b\":2\x7d y"

set_option maxRecDepth 40000 in
/-- C5 counterexample: `chatJSON` selects the first strategy whose regex
matches, not the first whose candidate parses — on `cexC5a` the fenced
candidate fails to parse and the error propagates even though the next
strategy's candidate parses; and its second strategy is the greedy
first-to-last brace span, not a brace-balanced one — on `cexC5b` that
greedy span fails to parse although a brace-balanced span parses. -/
theorem C5_extraction_order_cex :
    chatJSON (some cexC5a) = Except.error ("JSON parse failure: not json") ∧
    (braceSpanStr (strTrim cexC5a)).bind jsonParse = some (Json.obj [("a", Json.num 1)]) ∧
    chatJSON (some cexC5b) = Except.error ("JSON parse failure: \x7b\"a\":1\x7d \x7b\"b\":2\x7d") ∧
    jsonParse "\x7b\"a\":1\x7d" = some (Json.obj [("a", Json.num 1)]) :=
  ⟨rfl, rfl, rfl, rfl⟩

/-- C5 (amended): extraction picks its candidate by the first matching
regex — trimmed fenced body, else greedy `\x7b...\x7d` span, else entire
trimmed text — regardless of parseability; whenever the fenced regex
matches with a nonempty trimmed body that body is the candidate, and if it
fails to parse, `chatJSON` throws that parse error without falling back to
the later strategies. -/
theorem C5_fenced_match_wins (content : String) (seg whole : List Char)
    (hcne : content ≠ "")
    (hf : chatFence ((strTrim content).length + 1) (strTrim content).toList = some (seg, whole))
    (hb : strTrim (String.mk seg) ≠ "")
    (hfail : jsonParse (strTrim (String.mk seg)) = none) :
    chatJSON (some content) =
      Except.error ("JSON parse failure: " ++ strTrim (String.mk seg)) := by
  have hextract : chatJSONExtract content = strTrim (String.mk seg) := by
    simp only [chatJSONExtract, hf]
    simp [hb]
  simp only [chatJSON]
  rw [show (content == "") = false from beq_eq_false_iff_ne.mpr hcne]
  simp only [Bool.false_eq_true, if_false]
  rw [hextract, hfail]

/-- The fenced content of the C5 witness. -/
def wC5 : String := "```json\nnot json\n```"

/-- The fenced-group characters of `wC5`. -/
def wSeg5 : List Char := "\nnot json\n".toList

set_option maxRecDepth 40000 in
/-- C5 amended-claim witness at the concrete fenced content. -/
theorem C5_fenced_match_wins_witness :
    strTrim (String.mk wSeg5) ≠ "" ∧
    chatJSON (some wC5) =
      Except.error ("JSON parse failure: " ++ strTrim (String.mk wSeg5)) :=
  ⟨by decide, C5_fenced_match_wins wC5 wSeg5 wC5.toList (by decide) rfl (by decide) rfl⟩

/-- A final answer whose `recordingSteps` is the empty string. -/
def strStepsContent : String := "\x7b\"title\":\"T\",\"recordingSteps\":\"\"\x7d"

/-- Oracle that immediately produces `strStepsContent`. -/
def wOracleC9b : Nat → ChatResultM := fun _ =>
  { content := some strStepsContent, toolCalls := [] }

set_option maxRecDepth 40000 in
/-- C9 counterexample: the distinct validation message is not produced
only for an empty array — a plan whose `recordingSteps` is the empty
string (whose JavaScript `.length` is also `0`) trips the same gate. -/
theorem C9_validation_message_scope_cex :
    (generateRecordingPlan trivialAuto wOracleC9b).2 =
      Except.error (PlannerErr.validation emptyStepsMsg) ∧
    jsonParse (extractPlanString strStepsContent) =
      some (Json.obj [("title", Json.str "T"), ("recordingSteps", Json.str "")]) :=
  ⟨rfl, rfl⟩
